import Mathlib

/-!
Shallow embedding of the multisite-lighthouse-gcp cloud function
(src/index.js).  Pure computations (toNdjson, path construction, the
debounce decision) are translated as Lean functions; each effectful call
(storage reads and writes, the PageSpeed API call, Pub/Sub publishes, the
BigQuery load) is recorded as an explicit entry of an effect trace, and
each fallible collaborator is a parameter of the environment so that every
error path of the source can be exercised.
-/

namespace Psi

/-- Source entry of config.json: an id, a url, a strategy and an optional
category list, per config.schema.json. -/
structure Source where
  id : String
  url : String
  strategy : String
  category : Option (List String)
  deriving Repr, DecidableEq

/-- Configuration of the function, the fields of config.json that
src/index.js reads.  outputFormat is optional: index.js line 129 defaults
it to the empty array. -/
structure Config where
  source : List Source
  projectId : String
  datasetId : String
  pubsubTopicId : String
  minTimeBetweenTriggers : Int
  outputFormat : Option (List String)
  gcsBucketName : String
  deriving Repr, DecidableEq

/-- Minimal JSON value type for the objects the function serializes. -/
inductive Json where
  | str : String → Json
  | num : Int → Json
  | bool : Bool → Json
  | null : Json
  | arr : List Json → Json
  | obj : List (String × Json) → Json
  deriving Repr

/-- Escape of a single character inside a JSON string: quote and backslash
are preceded by a backslash, the escapes that can occur in the
configuration strings the function serializes. -/
def escChar (c : Char) : List Char :=
  if c = Char.ofNat 34 then [Char.ofNat 92, Char.ofNat 34]
  else if c = Char.ofNat 92 then [Char.ofNat 92, Char.ofNat 92]
  else [c]

/-- Escape of the body of a JSON string. -/
def jsonEscape (s : String) : String :=
  String.mk (s.toList.flatMap escChar)

/-- Quoted JSON string. -/
def jsonQuote (s : String) : String :=
  "\"" ++ jsonEscape s ++ "\""

mutual

/-- Model of JSON.stringify with no spacing argument. -/
def jsonStringify : Json → String
  | Json.str s => jsonQuote s
  | Json.num n => toString n
  | Json.bool b => if b then "true" else "false"
  | Json.null => "null"
  | Json.arr xs => "[" ++ String.intercalate "," (stringifyElems xs) ++ "]"
  | Json.obj fs => "\x7b" ++ String.intercalate "," (stringifyProps fs) ++ "\x7d"

/-- Serialization of the elements of a JSON array. -/
def stringifyElems : List Json → List String
  | [] => []
  | x :: xs => jsonStringify x :: stringifyElems xs

/-- Serialization of the properties of a JSON object. -/
def stringifyProps : List (String × Json) → List String
  | [] => []
  | (k, v) :: fs => (jsonQuote k ++ ":" ++ jsonStringify v) :: stringifyProps fs

end

/-- Embedding of toNdjson (index.js lines 93 to 100): wrap a non array
argument into a singleton array, then append JSON.stringify of each item
followed by a newline to an accumulator string. -/
def toNdjson (data : Json) : String :=
  let items := match data with
    | Json.arr xs => xs
    | j => [j]
  items.foldl (fun outNdjson item => outNdjson ++ (jsonStringify item ++ "\n")) ""

/-- Concatenation of a list of strings, in order. -/
def concatAll (ss : List String) : String :=
  ss.foldr (fun a b => a ++ b) ""

theorem foldl_append_eq_concatAll (f : Json → String) :
    ∀ (xs : List Json) (acc : String),
      xs.foldl (fun out item => out ++ f item) acc = acc ++ concatAll (xs.map f) := by
  intro xs
  induction xs with
  | nil => intro acc; simp [concatAll]
  | cons x xs ih =>
      intro acc
      simp only [List.foldl_cons, List.map_cons, concatAll, List.foldr_cons]
      rw [ih (acc ++ f x)]
      simp [concatAll, String.append_assoc]

/-- C9: toNdjson on an array returns the concatenation, in order, of the
JSON serialization of each element followed by a newline; in particular on
the three item array of the spec it returns the expected NDJSON string. -/
theorem toNdjson_concat_spec (xs : List Json) :
    toNdjson (Json.arr xs)
      = concatAll (xs.map (fun item => jsonStringify item ++ "\n"))
    ∧ toNdjson (Json.arr [Json.obj [("item1", Json.str "value1")],
                          Json.obj [("item2", Json.str "value2")],
                          Json.obj [("item3", Json.str "value3")]])
      = "\x7b\"item1\":\"value1\"\x7d\n\x7b\"item2\":\"value2\"\x7d\n\x7b\"item3\":\"value3\"\x7d\n" := by
  constructor
  · simp only [toNdjson]
    rw [foldl_append_eq_concatAll]
    simp
  · rfl

/-- Effects the function performs against its collaborators, in the order
they are initiated.  stateWrite carries the serialized state map so that
theorems can inspect what was persisted. -/
inductive Effect where
  | stateRead : String → Effect
  | stateWrite : String → List (String × Int) → Effect
  | psiCall : String → String → String → List String → Effect
  | storageWrite : String → Effect
  | tmpFileWrite : String → String → Effect
  | pubPublish : String → String → Effect
  | bqLoad : String → String → String → String → Effect
  | logInfo : String → Effect
  | logError : String → Effect
  deriving Repr, DecidableEq

/-- Outcome of the attempt to download and parse the per strategy state
blob (index.js lines 171 to 179): either the parsed object or a failure of
any kind (object absent, download error, parse error). -/
inductive ReadRes where
  | ok : List (String × Int) → ReadRes
  | failed : ReadRes
  deriving Repr, DecidableEq

/-- State map the catch block leaves in scope: the parsed blob on success,
the initial empty object on any failure. -/
def loadedStates : ReadRes → List (String × Int)
  | ReadRes.ok s => s
  | ReadRes.failed => []

/-- Value returned by checkEventState. -/
structure CheckResult where
  active : Bool
  delta : Option Int
  deriving Repr, DecidableEq

/-- Lookup of eventStates[id].created, none when id is not a key. -/
def lookupCreated (states : List (String × Int)) (id : String) : Option Int :=
  (states.find? (fun p => p.1 = id)).map (fun p => p.2)

/-- Assignment eventStates[id] = (created := timeNow): replace the entry in
place when the key exists, append it otherwise, matching JS object key
order under JSON.stringify. -/
def setCreated : List (String × Int) → String → Int → List (String × Int)
  | [], id, timeNow => [(id, timeNow)]
  | p :: ps, id, timeNow =>
      if p.1 = id then (id, timeNow) :: ps else p :: setCreated ps id timeNow

/-- Guard of index.js line 183: const delta = id in eventStates and
(timeNow - created); if (delta and delta < minTimeBetweenTriggers).  In JS
the conjunction is on truthiness, so a delta of exactly 0 fails the guard
just as an absent record does. -/
def deltaTruthyLt (delta : Option Int) (t : Int) : Bool :=
  match delta with
  | none => false
  | some d => d != 0 && d < t

/-- Math.round(d / 1000) on an integer d: floor of d / 1000 + one half,
rounding halves toward positive infinity as JS does. -/
def jsRoundDiv1000 (d : Int) : Int :=
  Int.fdiv (d + 500) 1000

/-- Path of the per source per strategy state blob. -/
def statePath (id strategy : String) : String :=
  id ++ "/" ++ strategy ++ "/state.json"

/-- Embedding of checkEventState (index.js lines 169 to 193).  The read
outcome and whether the save rejects are parameters; the function returns
the trace of storage effects it performs together with its result, where
an error models the awaited save rejecting (propagated to the caller). -/
def checkEventState (cfg : Config) (readRes : ReadRes) (writeFails : Bool)
    (id strategy : String) (timeNow : Int) :
    List Effect × Except String CheckResult :=
  let path := statePath id strategy
  let eventStates := loadedStates readRes
  let delta := (lookupCreated eventStates id).map (fun created => timeNow - created)
  if deltaTruthyLt delta cfg.minTimeBetweenTriggers then
    ([Effect.stateRead path],
     Except.ok { active := true, delta := delta.map jsRoundDiv1000 })
  else
    let newStates := setCreated eventStates id timeNow
    if writeFails then
      ([Effect.stateRead path], Except.error "state save rejected")
    else
      ([Effect.stateRead path, Effect.stateWrite path newStates],
       Except.ok { active := false, delta := none })

/-- Assignment into the state map always leaves the new timestamp under the
assigned key. -/
theorem lookupCreated_setCreated (states : List (String × Int)) (id : String) (t : Int) :
    lookupCreated (setCreated states id t) id = some t := by
  induction states with
  | nil => simp [setCreated, lookupCreated, List.find?]
  | cons p ps ih =>
      by_cases h : p.1 = id
      · simp [setCreated, lookupCreated, List.find?, h]
      · simpa [setCreated, lookupCreated, List.find?, h] using ih

/-- Truth of whether an Except carries a value. -/
def exceptOk {e a : Type} : Except e a → Bool
  | Except.ok _ => true
  | Except.error _ => false

/-- Active flag of a checkEventState result, false on an error. -/
def activeOf (r : Except String CheckResult) : Bool :=
  match r with
  | Except.ok s => s.active
  | Except.error _ => false

/-- Raw body of a PageSpeed Insights API response; only the analysis
timestamp matters to the embedded functions. -/
structure PsiRaw where
  analysisUTCTimestamp : String
  deriving Repr, DecidableEq

/-- Report object after the annotation of index.js lines 79 to 81: the raw
response with id, url and emulatedFormFactor set from the parameters of
getPagespeedInsightsReport, plus the job id attached later at line 238. -/
structure Report where
  id : String
  url : String
  emulatedFormFactor : String
  analysisUTCTimestamp : String
  jobId : Option String
  deriving Repr, DecidableEq

/-- Embedding of getPagespeedInsightsReport (index.js lines 71 to 85): log
the request, default an unspecified category to the empty list, call the
API, annotate the raw result with the id, url and strategy parameters, log
the receipt.  The API outcome is a parameter; its error propagates. -/
def getPagespeedInsightsReport (id url strategy : String)
    (category : Option (List String)) (api : Except String PsiRaw) :
    List Effect × Except String Report :=
  let cat := category.getD []
  let requestLog := Effect.logInfo
    (id ++ ": Requesting Pagespeed Insight report for " ++ url ++ " on " ++ strategy)
  match api with
  | Except.error e => ([requestLog, Effect.psiCall id url strategy cat], Except.error e)
  | Except.ok raw =>
      ([requestLog, Effect.psiCall id url strategy cat,
        Effect.logInfo (id ++ ": Pagespeed Insight report received for "
          ++ url ++ " on " ++ strategy)],
       Except.ok { id := id, url := url, emulatedFormFactor := strategy,
                   analysisUTCTimestamp := raw.analysisUTCTimestamp, jobId := none })

/-- Embedding of sendAllPubsubMsgs (index.js lines 108 to 118): for each id,
in order of initiation, log, publish the raw id bytes to the configured
topic, log completion. -/
def sendAllPubsubMsgs (cfg : Config) (ids : List String) : List Effect :=
  ids.flatMap (fun id =>
    [Effect.logInfo (id ++ ": Sending init PubSub message"),
     Effect.pubPublish cfg.pubsubTopicId id,
     Effect.logInfo (id ++ ": Init PubSub message sent")])

/-- Path of the report object written for a source. -/
def reportPath (id : String) (obj : Report) : String :=
  id ++ "/" ++ obj.emulatedFormFactor ++ "/report_" ++ obj.analysisUTCTimestamp ++ ".json"

/-- Path of the log object written for a source. -/
def logPath (id : String) (obj : Report) : String :=
  id ++ "/" ++ obj.emulatedFormFactor ++ "/log_" ++ obj.analysisUTCTimestamp ++ ".json"

/-- Embedding of writeLogAndReportsToStorage (index.js lines 127 to 159):
outputFormat defaults to the empty array; for each configured format the
switch falls through so that only the json case sets output and saves a
report object (csv, html and anything else write nothing); the log object
is then always saved. -/
def writeLogAndReportsToStorage (cfg : Config) (obj : Report) (id : String) :
    List Effect :=
  let outputFormat := cfg.outputFormat.getD []
  let reportWrites := outputFormat.flatMap (fun fileType =>
    if fileType = "json" then
      [Effect.logInfo (id ++ ": Writing " ++ fileType ++ " report to bucket "
         ++ cfg.gcsBucketName),
       Effect.storageWrite (reportPath id obj)]
    else [])
  reportWrites
    ++ [Effect.logInfo (id ++ ": Writing log to bucket " ++ cfg.gcsBucketName),
        Effect.storageWrite (logPath id obj)]

/-- Paths of the storage object writes of a trace. -/
def storageWritePaths (trace : List Effect) : List String :=
  trace.filterMap (fun e => match e with
    | Effect.storageWrite p => some p
    | _ => none)

/-- Topic and payload of each publish of a trace. -/
def publishesOf (trace : List Effect) : List (String × String) :=
  trace.filterMap (fun e => match e with
    | Effect.pubPublish topic msg => some (topic, msg)
    | _ => none)

/-- Arguments of each PageSpeed API call of a trace. -/
def psiCallsOf (trace : List Effect) : List (String × String × String × List String) :=
  trace.filterMap (fun e => match e with
    | Effect.psiCall id url strategy cat => some (id, url, strategy, cat)
    | _ => none)

/-- Truth of whether an effect mutates durable state or calls a downstream
service: state writes, API fetches, storage writes, scratch file writes,
publishes and load submissions; reads and log lines are not mutations. -/
def isDownstream : Effect → Bool
  | Effect.stateWrite _ _ => true
  | Effect.psiCall _ _ _ _ => true
  | Effect.storageWrite _ => true
  | Effect.tmpFileWrite _ _ => true
  | Effect.pubPublish _ _ => true
  | Effect.bqLoad _ _ _ _ => true
  | _ => false

/-- Error log lines of a trace. -/
def errorLogsOf (trace : List Effect) : List String :=
  trace.filterMap (fun e => match e with
    | Effect.logError m => some m
    | _ => none)

/-- JSON rendering of a report, for the NDJSON scratch file. -/
def reportToJson (r : Report) : Json :=
  Json.obj ([("id", Json.str r.id), ("url", Json.str r.url),
             ("emulatedFormFactor", Json.str r.emulatedFormFactor),
             ("analysisUTCTimestamp", Json.str r.analysisUTCTimestamp)]
    ++ (match r.jobId with
        | some j => [("job_id", Json.str j)]
        | none => []))

/-- Fallible collaborators of one invocation of the function: the generated
uuid, the invocation time, the state blob read outcome, and whether each
awaited or returned promise rejects. -/
structure Env where
  uuid : String
  timeNow : Int
  stateRead : ReadRes
  stateWriteFails : Bool
  api : Except String PsiRaw
  reportWriteFails : Bool
  tmpWriteFails : Bool
  fanoutRejects : Bool
  loadRejects : Bool
  deriving Repr

/-- Embedding of launchPagespeedInsights (index.js lines 202 to 252).  The
trigger is the decoded message, none when decoding event.data throws.  The
result pairs the trace of effects with the outcome of the returned promise:
ok when the invocation ends without raising, error when a rejection escapes
the entry point.  Every awaited rejection inside the try block is caught at
line 249 and logged; the two promises handed back with return and no await
(sendAllPubsubMsgs at line 218 and the BigQuery load at line 244) bypass
the catch, so their rejections escape. -/
def launchPagespeedInsights (cfg : Config) (env : Env) (eventData : Option String) :
    List Effect × Except String Unit :=
  match eventData with
  | none =>
      ([Effect.logError "TypeError"], Except.ok ())
  | some msg =>
      let ids := cfg.source.map (fun s => s.id)
      if msg != "all" && !(ids.contains msg) then
        ([Effect.logError "No valid message found!"], Except.ok ())
      else if msg == "all" then
        (sendAllPubsubMsgs cfg ids,
         if env.fanoutRejects then Except.error "pubsub publish rejected"
         else Except.ok ())
      else
        match cfg.source.find? (fun s => s.id == msg) with
        | none =>
            ([Effect.logError "TypeError"], Except.ok ())
        | some src =>
            let id := src.id
            let url := src.url
            let device := src.strategy
            let startLog := Effect.logInfo
              (id ++ ": Received message to start with URL " ++ url ++ " on " ++ device)
            let ces := checkEventState cfg env.stateRead env.stateWriteFails
              id device env.timeNow
            match ces.2 with
            | Except.error e =>
                (startLog :: ces.1 ++ [Effect.logError e], Except.ok ())
            | Except.ok st =>
                if st.active then
                  (startLog :: ces.1
                     ++ [Effect.logInfo (id ++ ": Found active event on " ++ device
                          ++ " (" ++ toString (st.delta.getD 0) ++ "s < "
                          ++ toString (jsRoundDiv1000 cfg.minTimeBetweenTriggers)
                          ++ "s), aborting...")],
                   Except.ok ())
                else
                  -- index.js line 234 passes (id, device, url), so the url
                  -- parameter receives the strategy, the strategy parameter
                  -- receives the url, and the category argument is absent
                  let fetch := getPagespeedInsightsReport id device url none env.api
                  match fetch.2 with
                  | Except.error e =>
                      (startLog :: ces.1 ++ fetch.1 ++ [Effect.logError e], Except.ok ())
                  | Except.ok report =>
                      let writes := writeLogAndReportsToStorage cfg report id
                      if env.reportWriteFails then
                        (startLog :: ces.1 ++ fetch.1 ++ writes
                           ++ [Effect.logError "storage save rejected"], Except.ok ())
                      else if env.tmpWriteFails then
                        (startLog :: ces.1 ++ fetch.1 ++ writes
                           ++ [Effect.logError "writeFile rejected"], Except.ok ())
                      else
                        (startLog :: ces.1 ++ fetch.1 ++ writes
                           ++ [Effect.tmpFileWrite ("/tmp/" ++ env.uuid ++ ".json")
                                 (toNdjson (reportToJson { report with jobId := some env.uuid })),
                               Effect.logInfo (id ++ ": BigQuery job with ID " ++ env.uuid
                                 ++ " starting for " ++ url ++ " on " ++ device),
                               Effect.bqLoad cfg.datasetId "reports"
                                 ("/tmp/" ++ env.uuid ++ ".json") env.uuid],
                         if env.loadRejects then Except.error "bigquery load rejected"
                         else Except.ok ())

/-- First configured source, mirroring test/config.test.json. -/
def srcGoogle : Source :=
  { id := "googlesearch", url := "https://www.google.com/",
    strategy := "mobile", category := some ["performance"] }

/-- Second configured source, mirroring test/config.test.json. -/
def srcEbay : Source :=
  { id := "ebay", url := "https://www.ebay.com/",
    strategy := "desktop", category := none }

/-- Configuration fixture mirroring test/config.test.json. -/
def cfgDemo : Config :=
  { source := [srcGoogle, srcEbay], projectId := "test-project",
    datasetId := "pagespeed-insights", pubsubTopicId := "psi-trigger",
    minTimeBetweenTriggers := 30000, outputFormat := some ["json"],
    gcsBucketName := "pagespeedinsights-reports" }

/-- C1 counterexample: a record for googlesearch exists and its delta
d = 1000 - 1000 = 0 satisfies d < minTimeBetweenTriggers, so the claim
requires active true; yet checkEventState returns active false and
rewrites the record, because the JS guard (delta and delta < T) treats the
delta 0 as falsy. -/
theorem checkEventState_zero_delta_cex :
    lookupCreated (loadedStates (ReadRes.ok [("googlesearch", 1000)])) "googlesearch"
        = some 1000
    ∧ ((1000 : Int) - 1000) < cfgDemo.minTimeBetweenTriggers
    ∧ (checkEventState cfgDemo (ReadRes.ok [("googlesearch", 1000)]) false
        "googlesearch" "mobile" 1000).2
        = Except.ok { active := false, delta := none } :=
  ⟨rfl, by decide, rfl⟩

/-- C1 amended: with a succeeding save, checkEventState returns active true
with delta Math.round(d / 1000) exactly when a record for id exists in the
loaded state whose delta d = timeNow - created is nonzero and below
minTimeBetweenTriggers (a zero delta is falsy in JS and is treated like an
absent record); in every other case it returns active false and rewrites
the state record for id with created = timeNow. -/
theorem checkEventState_behavior (cfg : Config) (readRes : ReadRes)
    (id strategy : String) (timeNow : Int) :
    (∃ created, lookupCreated (loadedStates readRes) id = some created
        ∧ timeNow - created ≠ 0
        ∧ timeNow - created < cfg.minTimeBetweenTriggers
        ∧ checkEventState cfg readRes false id strategy timeNow
            = ([Effect.stateRead (statePath id strategy)],
               Except.ok { active := true,
                           delta := some (jsRoundDiv1000 (timeNow - created)) }))
    ∨ ((∀ created, lookupCreated (loadedStates readRes) id = some created →
          timeNow - created = 0 ∨ ¬ timeNow - created < cfg.minTimeBetweenTriggers)
        ∧ checkEventState cfg readRes false id strategy timeNow
            = ([Effect.stateRead (statePath id strategy),
                Effect.stateWrite (statePath id strategy)
                  (setCreated (loadedStates readRes) id timeNow)],
               Except.ok { active := false, delta := none })
        ∧ lookupCreated (setCreated (loadedStates readRes) id timeNow) id
            = some timeNow) := by
  by_cases h : deltaTruthyLt
      ((lookupCreated (loadedStates readRes) id).map (fun created => timeNow - created))
      cfg.minTimeBetweenTriggers = true
  · left
    cases hc : lookupCreated (loadedStates readRes) id with
    | none => rw [hc] at h; simp [deltaTruthyLt] at h
    | some created =>
        rw [hc] at h
        simp [deltaTruthyLt] at h
        obtain ⟨h0, hlt⟩ := h
        refine ⟨created, rfl, h0, hlt, ?_⟩
        simp [checkEventState, hc, deltaTruthyLt, h0, hlt]
  · right
    rw [Bool.not_eq_true] at h
    refine ⟨?_, ?_, lookupCreated_setCreated _ _ _⟩
    · intro created hc
      rw [hc] at h
      simp [deltaTruthyLt] at h
      by_cases h0 : timeNow - created = 0
      · exact Or.inl h0
      · exact Or.inr (not_lt.mpr (h h0))
    · simp [checkEventState, h]

/-- C6: checkEventState treats any failure of the state blob read exactly
as the empty state (the read error is swallowed), while the save, which
only happens on the inactive path, makes the call fail exactly when the
debounce decision is inactive and the save rejects. -/
theorem checkEventState_error_policy (cfg : Config) (id strategy : String)
    (timeNow : Int) :
    (∀ writeFails, checkEventState cfg ReadRes.failed writeFails id strategy timeNow
        = checkEventState cfg (ReadRes.ok []) writeFails id strategy timeNow)
    ∧ (∀ readRes, exceptOk (checkEventState cfg readRes true id strategy timeNow).2
        = activeOf (checkEventState cfg readRes false id strategy timeNow).2) := by
  constructor
  · intro writeFails; rfl
  · intro readRes
    by_cases h : deltaTruthyLt
        ((lookupCreated (loadedStates readRes) id).map (fun created => timeNow - created))
        cfg.minTimeBetweenTriggers = true
    · simp [checkEventState, h, exceptOk, activeOf]
    · rw [Bool.not_eq_true] at h
      simp [checkEventState, h, exceptOk, activeOf]

/-- Environment fixture: a fresh state, a succeeding API and no rejecting
collaborator, mirroring the test sample. -/
def envDemo : Env :=
  { uuid := "8e6c2e10-01e6-11e9-b4a4-dd18c53f7b9a", timeNow := 100000,
    stateRead := ReadRes.ok [], stateWriteFails := false,
    api := Except.ok { analysisUTCTimestamp := "2018-12-17T10:56:56.420Z" },
    reportWriteFails := false, tmpWriteFails := false,
    fanoutRejects := false, loadRejects := false }

/-- Environment fixture whose state blob holds a googlesearch record 5000
milliseconds before the invocation, so the debounce is active. -/
def envActive : Env :=
  { envDemo with stateRead := ReadRes.ok [("googlesearch", 95000)] }

/-- C5: with outputFormat = [json] the writer saves exactly two objects,
the report and then the log, both under sourceId/formFactor/; with
outputFormat absent or empty exactly the log object; and the log object is
written whatever the configured output formats are. -/
theorem writeLogAndReportsToStorage_policy (cfg : Config) (obj : Report) (id : String) :
    storageWritePaths (writeLogAndReportsToStorage
        { cfg with outputFormat := some ["json"] } obj id)
      = [reportPath id obj, logPath id obj]
    ∧ storageWritePaths (writeLogAndReportsToStorage
        { cfg with outputFormat := none } obj id) = [logPath id obj]
    ∧ storageWritePaths (writeLogAndReportsToStorage
        { cfg with outputFormat := some [] } obj id) = [logPath id obj]
    ∧ ∀ formats, logPath id obj ∈ storageWritePaths (writeLogAndReportsToStorage
        { cfg with outputFormat := formats } obj id) := by
  refine ⟨?_, ?_, ?_, ?_⟩
  · simp [writeLogAndReportsToStorage, storageWritePaths]
  · simp [writeLogAndReportsToStorage, storageWritePaths]
  · simp [writeLogAndReportsToStorage, storageWritePaths]
  · intro formats
    simp [writeLogAndReportsToStorage, storageWritePaths]

/-- C8: sendAllPubsubMsgs publishes, to the single configured topic, one
message per id carrying that id, in order; in particular for ids a, b it
publishes exactly the message a and then the message b. -/
theorem sendAllPubsubMsgs_publishes (cfg : Config) (a b : String) :
    publishesOf (sendAllPubsubMsgs cfg [a, b])
      = [(cfg.pubsubTopicId, a), (cfg.pubsubTopicId, b)]
    ∧ ∀ ids : List String, publishesOf (sendAllPubsubMsgs cfg ids)
        = ids.map (fun id => (cfg.pubsubTopicId, id)) := by
  constructor
  · simp [sendAllPubsubMsgs, publishesOf]
  · intro ids
    induction ids with
    | nil => simp [sendAllPubsubMsgs, publishesOf]
    | cons x xs ih =>
        simp only [sendAllPubsubMsgs, publishesOf, List.flatMap_cons,
          List.filterMap_append, List.map_cons] at ih ⊢
        simp [ih]

/-- C7: a decoded trigger payload that is neither the token all nor a
configured source id makes the orchestrator produce exactly the single
error log No valid message found!, perform no downstream call, and return
without raising. -/
theorem launch_invalid_message (cfg : Config) (env : Env) (msg : String)
    (hall : (msg == "all") = false)
    (hmem : ((cfg.source.map (fun s => s.id)).contains msg) = false) :
    launchPagespeedInsights cfg env (some msg)
      = ([Effect.logError "No valid message found!"], Except.ok ())
    ∧ errorLogsOf (launchPagespeedInsights cfg env (some msg)).1
      = ["No valid message found!"]
    ∧ (launchPagespeedInsights cfg env (some msg)).1.filter isDownstream = [] := by
  have hcond : (msg != "all" && !((cfg.source.map (fun s => s.id)).contains msg)) = true := by
    rw [bne, hall, hmem]; rfl
  have h : launchPagespeedInsights cfg env (some msg)
      = ([Effect.logError "No valid message found!"], Except.ok ()) := by
    simp only [launchPagespeedInsights, hcond, if_true]
  exact ⟨h, by rw [h]; rfl, by rw [h]; rfl⟩

/-- C7 witness: the payload invalid_message against the demo configuration. -/
theorem launch_invalid_message_witness :
    launchPagespeedInsights cfgDemo envDemo (some "invalid_message")
      = ([Effect.logError "No valid message found!"], Except.ok ())
    ∧ errorLogsOf (launchPagespeedInsights cfgDemo envDemo (some "invalid_message")).1
      = ["No valid message found!"]
    ∧ (launchPagespeedInsights cfgDemo envDemo (some "invalid_message")).1.filter
        isDownstream = [] :=
  launch_invalid_message cfgDemo envDemo "invalid_message" rfl rfl

/-- Source whose id is the literal string all. -/
def srcAll : Source :=
  { id := "all", url := "https://example.com/", strategy := "desktop",
    category := none }

/-- Configuration containing a source whose id is exactly all. -/
def cfgAll : Config :=
  { cfgDemo with source := [srcAll, srcEbay] }

/-- C10: a decoded payload equal to all always takes the fan out path, one
publish per configured source id, and never the single source path: the
check of the all token precedes source resolution, so even a configuration
with a source whose id is exactly all is fanned out, with no API fetch. -/
theorem launch_all_fanout (cfg : Config) (env : Env) :
    launchPagespeedInsights cfg env (some "all")
      = (sendAllPubsubMsgs cfg (cfg.source.map (fun s => s.id)),
         if env.fanoutRejects then Except.error "pubsub publish rejected"
         else Except.ok ())
    ∧ psiCallsOf (launchPagespeedInsights cfgAll envDemo (some "all")).1 = []
    ∧ publishesOf (launchPagespeedInsights cfgAll envDemo (some "all")).1
      = [("psi-trigger", "all"), ("psi-trigger", "ebay")] := by
  refine ⟨?_, rfl, rfl⟩
  simp [launchPagespeedInsights]

/-- C4: when the trigger resolves to a configured source whose state record
is fresh (nonzero elapsed delta below minTimeBetweenTriggers), the
invocation ends without raising and its trace holds no mutation and no
downstream call: no state rewrite, no API fetch, no storage object write,
no scratch file, no publish and no load submission, so the original state
record is preserved. -/
theorem launch_debounced_frame (cfg : Config) (env : Env) (msg : String)
    (src : Source) (created : Int)
    (hall : (msg == "all") = false)
    (hmem : ((cfg.source.map (fun s => s.id)).contains msg) = true)
    (hfind : cfg.source.find? (fun s => s.id == msg) = some src)
    (hc : lookupCreated (loadedStates env.stateRead) src.id = some created)
    (h0 : env.timeNow - created ≠ 0)
    (hlt : env.timeNow - created < cfg.minTimeBetweenTriggers) :
    (launchPagespeedInsights cfg env (some msg)).2 = Except.ok ()
    ∧ (launchPagespeedInsights cfg env (some msg)).1.filter isDownstream = [] := by
  have hcond : (msg != "all" && !((cfg.source.map (fun s => s.id)).contains msg)) = false := by
    rw [hmem]; simp
  have hces : checkEventState cfg env.stateRead env.stateWriteFails
      src.id src.strategy env.timeNow
      = ([Effect.stateRead (statePath src.id src.strategy)],
         Except.ok { active := true,
                     delta := some (jsRoundDiv1000 (env.timeNow - created)) }) := by
    simp [checkEventState, hc, deltaTruthyLt, h0, hlt]
  have h : launchPagespeedInsights cfg env (some msg)
      = (Effect.logInfo (src.id ++ ": Received message to start with URL "
           ++ src.url ++ " on " ++ src.strategy)
          :: [Effect.stateRead (statePath src.id src.strategy)]
          ++ [Effect.logInfo (src.id ++ ": Found active event on " ++ src.strategy
               ++ " (" ++ toString (jsRoundDiv1000 (env.timeNow - created)) ++ "s < "
               ++ toString (jsRoundDiv1000 cfg.minTimeBetweenTriggers)
               ++ "s), aborting...")],
         Except.ok ()) := by
    simp only [launchPagespeedInsights, hcond, Bool.false_eq_true, if_false, hall,
      hfind, hces]
    rfl
  rw [h]
  exact ⟨rfl, rfl⟩

/-- C4 witness: the googlesearch trigger 5000 milliseconds after its
recorded state entry aborts with no mutation. -/
theorem launch_debounced_frame_witness :
    (launchPagespeedInsights cfgDemo envActive (some "googlesearch")).2 = Except.ok ()
    ∧ (launchPagespeedInsights cfgDemo envActive
        (some "googlesearch")).1.filter isDownstream = [] :=
  launch_debounced_frame cfgDemo envActive "googlesearch" srcGoogle 95000
    rfl rfl rfl rfl (by decide) (by decide)

/-- Environment fixture whose fan out publish rejects. -/
def envFanoutFails : Env :=
  { envDemo with fanoutRejects := true }

/-- C3 counterexample: an error raised at the fan out publishing stage is
not caught: launchPagespeedInsights hands the promise of sendAllPubsubMsgs
back with return and no await, so its rejection escapes the entry point
instead of being logged and swallowed. -/
theorem launch_fanout_rejection_escapes_cex :
    (launchPagespeedInsights cfgDemo envFanoutFails (some "all")).2
      = Except.error "pubsub publish rejected" := rfl

/-- C3 amended: every error raised at a stage the orchestrator awaits
inside its try block is logged and the invocation completes without
raising: (i) whenever neither returned promise rejects, no error escapes,
whatever else fails; (ii) a decoding error and (iii) a source resolution
error leave exactly an error log; (iv) a rejected debounce state save,
(v) a rejected report fetch, and (vi) rejected storage or scratch file
writes put their error log in the trace and still resolve.  Only the two
promises returned without await can escape: (vii) a warehouse load
rejection escapes the entry point (the fan out escape is the
counterexample). -/
theorem launch_errors_swallowed (cfg : Config) (env : Env) :
    (∀ eventData, env.fanoutRejects = false → env.loadRejects = false →
      (launchPagespeedInsights cfg env eventData).2 = Except.ok ())
    ∧ launchPagespeedInsights cfg env none
        = ([Effect.logError "TypeError"], Except.ok ())
    ∧ (∀ msg, (msg == "all") = false →
        ((cfg.source.map (fun s => s.id)).contains msg) = true →
        cfg.source.find? (fun s => s.id == msg) = none →
        launchPagespeedInsights cfg env (some msg)
          = ([Effect.logError "TypeError"], Except.ok ()))
    ∧ (∀ msg src e, (msg == "all") = false →
        ((cfg.source.map (fun s => s.id)).contains msg) = true →
        cfg.source.find? (fun s => s.id == msg) = some src →
        (checkEventState cfg env.stateRead env.stateWriteFails
            src.id src.strategy env.timeNow).2 = Except.error e →
        Effect.logError e ∈ (launchPagespeedInsights cfg env (some msg)).1
        ∧ (launchPagespeedInsights cfg env (some msg)).2 = Except.ok ())
    ∧ (∀ msg src st e, (msg == "all") = false →
        ((cfg.source.map (fun s => s.id)).contains msg) = true →
        cfg.source.find? (fun s => s.id == msg) = some src →
        (checkEventState cfg env.stateRead env.stateWriteFails
            src.id src.strategy env.timeNow).2 = Except.ok st →
        st.active = false →
        (getPagespeedInsightsReport src.id src.strategy src.url none env.api).2
          = Except.error e →
        Effect.logError e ∈ (launchPagespeedInsights cfg env (some msg)).1
        ∧ (launchPagespeedInsights cfg env (some msg)).2 = Except.ok ())
    ∧ (∀ msg src st report, (msg == "all") = false →
        ((cfg.source.map (fun s => s.id)).contains msg) = true →
        cfg.source.find? (fun s => s.id == msg) = some src →
        (checkEventState cfg env.stateRead env.stateWriteFails
            src.id src.strategy env.timeNow).2 = Except.ok st →
        st.active = false →
        (getPagespeedInsightsReport src.id src.strategy src.url none env.api).2
          = Except.ok report →
        (env.reportWriteFails = true →
          Effect.logError "storage save rejected"
              ∈ (launchPagespeedInsights cfg env (some msg)).1
          ∧ (launchPagespeedInsights cfg env (some msg)).2 = Except.ok ())
        ∧ (env.reportWriteFails = false → env.tmpWriteFails = true →
          Effect.logError "writeFile rejected"
              ∈ (launchPagespeedInsights cfg env (some msg)).1
          ∧ (launchPagespeedInsights cfg env (some msg)).2 = Except.ok ())
        ∧ (env.reportWriteFails = false → env.tmpWriteFails = false →
            env.loadRejects = true →
          (launchPagespeedInsights cfg env (some msg)).2
            = Except.error "bigquery load rejected")) := by
  refine ⟨?_, rfl, ?_, ?_, ?_, ?_⟩
  · intro eventData hf hl
    cases eventData with
    | none => rfl
    | some msg =>
        simp only [launchPagespeedInsights]
        split
        · rfl
        · split
          · simp [hf]
          · split
            · rfl
            · split
              · rfl
              · split
                · rfl
                · split
                  · rfl
                  · split
                    · rfl
                    · split
                      · rfl
                      · simp [hl]
  · intro msg hall hmem hfind
    have hcond : (msg != "all"
        && !((cfg.source.map (fun s => s.id)).contains msg)) = false := by
      rw [hmem]; simp
    simp only [launchPagespeedInsights, hcond, Bool.false_eq_true, if_false, hall, hfind]
  · intro msg src e hall hmem hfind hces
    have hcond : (msg != "all"
        && !((cfg.source.map (fun s => s.id)).contains msg)) = false := by
      rw [hmem]; simp
    have h : launchPagespeedInsights cfg env (some msg)
        = (Effect.logInfo (src.id ++ ": Received message to start with URL "
             ++ src.url ++ " on " ++ src.strategy)
            :: (checkEventState cfg env.stateRead env.stateWriteFails
                  src.id src.strategy env.timeNow).1
            ++ [Effect.logError e],
           Except.ok ()) := by
      simp only [launchPagespeedInsights, hcond, Bool.false_eq_true, if_false,
        hall, hfind, hces]
    rw [h]
    exact ⟨by simp, rfl⟩
  · intro msg src st e hall hmem hfind hces hactive hfetch
    have hcond : (msg != "all"
        && !((cfg.source.map (fun s => s.id)).contains msg)) = false := by
      rw [hmem]; simp
    have h : launchPagespeedInsights cfg env (some msg)
        = (Effect.logInfo (src.id ++ ": Received message to start with URL "
             ++ src.url ++ " on " ++ src.strategy)
            :: (checkEventState cfg env.stateRead env.stateWriteFails
                  src.id src.strategy env.timeNow).1
            ++ ((getPagespeedInsightsReport src.id src.strategy src.url none env.api).1
                ++ [Effect.logError e]),
           Except.ok ()) := by
      simp only [launchPagespeedInsights, hcond, Bool.false_eq_true, if_false,
        hall, hfind, hces, hactive, hfetch]
      simp [List.append_assoc]
    rw [h]
    exact ⟨by simp, rfl⟩
  · intro msg src st report hall hmem hfind hces hactive hfetch
    have hcond : (msg != "all"
        && !((cfg.source.map (fun s => s.id)).contains msg)) = false := by
      rw [hmem]; simp
    refine ⟨?_, ?_, ?_⟩
    · intro hrw
      have h : launchPagespeedInsights cfg env (some msg)
          = (Effect.logInfo (src.id ++ ": Received message to start with URL "
               ++ src.url ++ " on " ++ src.strategy)
              :: (checkEventState cfg env.stateRead env.stateWriteFails
                    src.id src.strategy env.timeNow).1
              ++ ((getPagespeedInsightsReport src.id src.strategy src.url none env.api).1
                  ++ (writeLogAndReportsToStorage cfg report src.id
                      ++ [Effect.logError "storage save rejected"])),
             Except.ok ()) := by
        simp only [launchPagespeedInsights, hcond, Bool.false_eq_true, if_false,
          hall, hfind, hces, hactive, hfetch, hrw, if_true]
        simp [List.append_assoc]
      rw [h]
      exact ⟨by simp, rfl⟩
    · intro hrw htw
      have h : launchPagespeedInsights cfg env (some msg)
          = (Effect.logInfo (src.id ++ ": Received message to start with URL "
               ++ src.url ++ " on " ++ src.strategy)
              :: (checkEventState cfg env.stateRead env.stateWriteFails
                    src.id src.strategy env.timeNow).1
              ++ ((getPagespeedInsightsReport src.id src.strategy src.url none env.api).1
                  ++ (writeLogAndReportsToStorage cfg report src.id
                      ++ [Effect.logError "writeFile rejected"])),
             Except.ok ()) := by
        simp only [launchPagespeedInsights, hcond, Bool.false_eq_true, if_false,
          hall, hfind, hces, hactive, hfetch, hrw, htw, if_true]
        simp [List.append_assoc]
      rw [h]
      exact ⟨by simp, rfl⟩
    · intro hrw htw hload
      have h : (launchPagespeedInsights cfg env (some msg)).2
          = Except.error "bigquery load rejected" := by
        simp only [launchPagespeedInsights, hcond, Bool.false_eq_true, if_false,
          hall, hfind, hces, hactive, hfetch, hrw, htw, hload, if_true]
      exact h

/-- C3 witness: with a failing PageSpeed API call and an unreadable state
blob, the invocation still resolves without raising. -/
theorem launch_errors_swallowed_witness :
    (launchPagespeedInsights cfgDemo
      { envDemo with api := Except.error "PSI API rejected",
                     stateRead := ReadRes.failed } (some "googlesearch")).2
      = Except.ok () :=
  (launch_errors_swallowed cfgDemo
    { envDemo with api := Except.error "PSI API rejected",
                   stateRead := ReadRes.failed }).1 (some "googlesearch") rfl rfl

/-- C2: the claim fails on the code.  At the configured source googlesearch
(url https://www.google.com/, strategy mobile) index.js line 234 calls
getPagespeedInsightsReport(id, device, url): the url parameter receives
mobile and the strategy parameter receives the url, so the API is invoked
with the arguments transposed and the report passed to the Report Writer
carries url = mobile and emulatedFormFactor = https://www.google.com/, as
the written object paths show. -/
theorem launch_psi_args_transposed :
    psiCallsOf (launchPagespeedInsights cfgDemo envDemo (some "googlesearch")).1
      = [("googlesearch", "mobile", "https://www.google.com/", [])]
    ∧ storageWritePaths (launchPagespeedInsights cfgDemo envDemo (some "googlesearch")).1
      = ["googlesearch/https://www.google.com//report_2018-12-17T10:56:56.420Z.json",
         "googlesearch/https://www.google.com//log_2018-12-17T10:56:56.420Z.json"] :=
  ⟨rfl, rfl⟩

end Psi
